import Mathlib

/-!
Verification development for the retro-arcade simulation cores.

Each engine of the repository (2048, Snake, Flappy, Space Invaders) is
shallowly embedded as pure Lean functions over explicit state structures.
JavaScript numbers are modelled as `Int` (all the integer-valued fields),
`Nat` (tile values, counters that never go negative) or `ℚ` (the
real-valued physics quantities and the outputs of `Math.random()`).
`Math.random()` is modelled as an injected stream `ℕ → ℚ` of draws in
`[0,1)`; each call site reads a fixed slot of the stream for the current
tick, matching the "seedable random source" modelling note of the design
document.  In-place mutation is rendered as explicit state passing, and
the backwards `for`-loops with `splice` are rendered as structural
recursions that process the elements in the same order as the source.
Rational constants are written with `mkRat` and floors with `Rat.floor`
(definitionally the floor of `ℚ`), keeping every definition evaluable by
`decide`; the arithmetic of `Rat` is restored to its definitional
transparency below for the same reason.
-/

section RetroArcade

attribute [local semireducible] Rat.mul Rat.add Rat.sub Rat.inv

namespace TwentyFortyEight

/-- State of the 2048 engine (`TwentyFortyEightGameState` in `types.ts`). -/
structure GameState where
  grid : List (List Nat)
  score : Int
  highScore : Int
  gameOver : Bool
  won : Bool
  paused : Bool
  width : Int
  height : Int
deriving Repr, DecidableEq

/-- `state.grid[r][c]` with the out-of-range reads defaulting to 0
(the grid is always 4×4 in the engine). -/
def getCell (g : List (List Nat)) (r c : Nat) : Nat :=
  (g.getD r []).getD c 0

/-- Write one cell of the grid. -/
def setCell (g : List (List Nat)) (r c : Nat) (v : Nat) : List (List Nat) :=
  g.set r ((g.getD r []).set c v)

/-- The merge loop of `move` in `2048.ts` (lines 66-77 / 100-111), embedded
index-for-index: starting at index `i` of the compacted values `v`, merge
`v[i]` with `v[i+1]` when equal (skipping the consumed neighbour),
accumulating the score delta and whether a merge produced exactly 2048.
The `fuel` argument, one unit per loop iteration, makes the recursion
structural; `fuel = v.length` always suffices since `i` advances by at
least one per iteration. -/
def mergeLoop (v : List Nat) : Nat → Nat → List Nat × Int × Bool
  | 0, _ => ([], 0, false)
  | fuel + 1, i =>
    if i < v.length then
      if i + 1 < v.length ∧ v.getD i 0 = v.getD (i + 1) 0 then
        let nv := 2 * v.getD i 0
        let rest := mergeLoop v fuel (i + 2)
        (nv :: rest.1, rest.2.1 + (nv : Int), rest.2.2 || decide (nv = 2048))
      else
        let rest := mergeLoop v fuel (i + 1)
        (v.getD i 0 :: rest.1, rest.2.1, rest.2.2)
    else ([], 0, false)

/-- The merge loop run from index 0 with enough fuel. -/
def mergeStep (v : List Nat) (i : Nat) : List Nat × Int × Bool :=
  mergeLoop v v.length i

/-- Specification-side restatement of the merge rule, from the spec's words:
"merge adjacent equal values pairwise left-to-right in the compacted order
(each tile merges at most once per move ... enforced by skipping the
consumed neighbor)". -/
def mergePairs : List Nat → List Nat
  | a :: b :: t => if a = b then (2 * a) :: mergePairs t else a :: mergePairs (b :: t)
  | l => l

/-- Traversal order of the grid indices for one line: indices 3,2,1,0 when
moving toward the high-index edge (`dr === 1` / `dc === 1`), else 0,1,2,3. -/
def traversal (dirPos : Bool) : List Nat :=
  if dirPos then [3, 2, 1, 0] else [0, 1, 2, 3]

/-- Read line `idx` (column `idx` for a vertical move, row `idx` otherwise)
of the grid in traversal order, as the source's `colValues`/`rowValues`
collection does before filtering. -/
def readLine (g : List (List Nat)) (vert dirPos : Bool) (idx : Nat) : List Nat :=
  (traversal dirPos).map (fun k => if vert then getCell g k idx else getCell g idx k)

/-- Process one line of the grid for a move: compact (drop zeros), merge,
and compute this line's contribution to the `moved` flag exactly as the
source does: a merge happened (`mergedValues.length < colValues.length`),
or a written-back value differs from the original grid at that traversal
position.  Returns (new line values, score delta, won-2048 flag, moved). -/
def processLine (g : List (List Nat)) (vert dirPos : Bool) (idx : Nat) :
    List Nat × Int × Bool × Bool :=
  let line := readLine g vert dirPos idx
  let compact := line.filter (fun x => x != 0)
  let res := mergeStep compact 0
  let merged := res.1
  let mvLine :=
    (List.range merged.length).any (fun k => line.getD k 0 != merged.getD k 0)
      || decide (merged.length < compact.length)
  (merged, res.2.1, res.2.2, mvLine)

/-- Process the four lines of a move.  The source accumulates the score by
`+=` and the `won`/`moved` flags by successive `or`-ing while looping over
the lines; since the lines are independent this equals the sum and the
`any` over the per-line results. -/
def processLines (g : List (List Nat)) (vert dirPos : Bool) :
    List (List Nat) × Int × Bool × Bool :=
  let res := (List.range 4).map (fun idx => processLine g vert dirPos idx)
  (res.map (fun p => p.1), (res.map (fun p => p.2.1)).sum,
    res.any (fun p => p.2.2.1), res.any (fun p => p.2.2.2))

/-- Rebuild the grid from the processed lines: line `idx` is written back
along the traversal order, unwritten cells staying 0 (the source's fresh
`newGrid` of zeroes); the merged values are padded with the zeros the
`newGrid` initialisation provides. -/
def writeBack (vert dirPos : Bool) (lines : List (List Nat)) : List (List Nat) :=
  (List.range 4).map (fun r =>
    (List.range 4).map (fun c =>
      let idx := if vert then c else r
      let pos := if vert then r else c
      let k := if dirPos then 3 - pos else pos
      (lines.getD idx []).getD k 0))

/-- `addRandomTile` of `2048.ts`: collect empty cells row-major, pick one
with draw `r 0`, place 2 with probability 0.9 (draw `r 1`), else 4.
No-op when the grid is full. -/
def addRandomTile (s : GameState) (r : ℕ → ℚ) : GameState :=
  let empty := (List.range 4).foldr
    (fun ri acc =>
      ((List.range 4).filterMap
        (fun ci => if getCell s.grid ri ci = 0 then some (ri, ci) else none)) ++ acc)
    []
  match empty with
  | [] => s
  | _ :: _ =>
    let idx := (Rat.floor (r 0 * (empty.length : ℚ))).toNat
    let cell := empty.getD idx (0, 0)
    let v := if r 1 < mkRat 9 10 then 2 else 4
    {s with grid := setCell s.grid cell.1 cell.2 v}

/-- `checkGameOver` of `2048.ts`: game over exactly when no empty cell and
no equal horizontal or vertical neighbours (early returns mirrored). -/
def checkGameOver (s : GameState) : GameState :=
  if (List.range 4).any (fun ri => (List.range 4).any (fun ci => getCell s.grid ri ci == 0)) then s
  else if (List.range 4).any (fun ri =>
      (List.range 3).any (fun ci => getCell s.grid ri ci == getCell s.grid ri (ci + 1))) then s
  else if (List.range 4).any (fun ci =>
      (List.range 3).any (fun ri => getCell s.grid ri ci == getCell s.grid (ri + 1) ci)) then s
  else {s with gameOver := true}

/-- Commit phase of `move`: if any movement occurred, install the new grid,
add the merge scores (the source mutates `score`/`won` during the pass, but
those mutations are nonzero only when a merge occurred, which forces
`moved`), spawn a random tile, update the high score, re-evaluate game
over; otherwise leave the state untouched and report `false`. -/
def commitIf (s : GameState) (vert dirPos : Bool)
    (res : List (List Nat) × Int × Bool × Bool) (r : ℕ → ℚ) : GameState × Bool :=
  if res.2.2.2 then
    let s1 := {s with grid := writeBack vert dirPos res.1,
                      score := s.score + res.2.1,
                      won := s.won || res.2.2.1}
    let s2 := addRandomTile s1 r
    let s3 := if s2.score > s2.highScore then {s2 with highScore := s2.score} else s2
    (checkGameOver s3, true)
  else (s, false)

/-- `move` of `2048.ts`: no-op returning `false` when the game is over,
vertical branch when `dr ≠ 0`, horizontal when `dc ≠ 0`. -/
def move (s : GameState) (dr dc : Int) (r : ℕ → ℚ) : GameState × Bool :=
  if s.gameOver then (s, false)
  else if dr ≠ 0 then commitIf s true (dr == 1) (processLines s.grid true (dr == 1)) r
  else if dc ≠ 0 then commitIf s false (dc == 1) (processLines s.grid false (dc == 1)) r
  else (s, false)

/-- `init2048`: empty grid, then two random tiles (draws 0,1 then 2,3). -/
def init2048 (width height : Int) (highScore : Int) (r : ℕ → ℚ) : GameState :=
  let base : GameState :=
    { grid := List.replicate 4 (List.replicate 4 0)
      score := 0, highScore := highScore
      gameOver := false, won := false, paused := false
      width := width, height := height }
  addRandomTile (addRandomTile base r) (fun k => r (k + 2))

/-- Reference single-pass recursion computing the merged values together
with the score delta and the made-2048 flag, stated in the shape of
`mergePairs`; a bridge between the fuel-indexed loop and `mergePairs`. -/
def mergePairsFull : List Nat → List Nat × Int × Bool
  | a :: b :: t =>
    if a = b then
      let r := mergePairsFull t
      ((2 * a) :: r.1, r.2.1 + ((2 * a : Nat) : Int), r.2.2 || decide (2 * a = 2048))
    else
      let r := mergePairsFull (b :: t)
      (a :: r.1, r.2.1, r.2.2)
  | l => (l, 0, false)

theorem mergePairsFull_fst : (l : List Nat) → (mergePairsFull l).1 = mergePairs l
  | [] => rfl
  | [_] => rfl
  | a :: b :: t => by
    show (if a = b then _ else _ : List Nat × Int × Bool).1 =
      (if a = b then (2 * a) :: mergePairs t else a :: mergePairs (b :: t))
    by_cases h : a = b
    · rw [if_pos h, if_pos h]
      exact congrArg _ (mergePairsFull_fst t)
    · rw [if_neg h, if_neg h]
      exact congrArg _ (mergePairsFull_fst (b :: t))

theorem mergeLoop_eq (v : List Nat) :
    ∀ (fuel i : Nat), v.length ≤ fuel + i → mergeLoop v fuel i = mergePairsFull (v.drop i)
  | 0, i, h => by
    rw [List.drop_eq_nil_of_le (by omega)]
    rfl
  | fuel + 1, i, h => by
    by_cases hi : i < v.length
    · have hgi : v.getD i 0 = v[i] := List.getD_eq_getElem v 0 hi
      have hd : v.drop i = v[i] :: v.drop (i + 1) := List.drop_eq_getElem_cons hi
      by_cases hi1 : i + 1 < v.length
      · have hgi1 : v.getD (i + 1) 0 = v[i + 1] := List.getD_eq_getElem v 0 hi1
        have hd1 : v.drop (i + 1) = v[i + 1] :: v.drop (i + 2) := List.drop_eq_getElem_cons hi1
        by_cases heq : v[i] = v[i + 1]
        · have hcond : i + 1 < v.length ∧ v.getD i 0 = v.getD (i + 1) 0 := by
            refine ⟨hi1, ?_⟩
            rw [hgi, hgi1]
            exact heq
          have ih := mergeLoop_eq v fuel (i + 2) (by omega)
          rw [hd, hd1]
          simp only [mergeLoop]
          rw [if_pos hi, if_pos hcond]
          simp only [mergePairsFull, if_pos heq, ih, hgi]
        · have hcond : ¬(i + 1 < v.length ∧ v.getD i 0 = v.getD (i + 1) 0) := by
            rw [hgi, hgi1]
            tauto
          have ih := mergeLoop_eq v fuel (i + 1) (by omega)
          rw [hd, hd1]
          simp only [mergeLoop]
          rw [if_pos hi, if_neg hcond]
          simp only [mergePairsFull, if_neg heq, ih, hd1, hgi]
      · have hd1 : v.drop (i + 1) = [] := List.drop_eq_nil_of_le (by omega)
        have hcond : ¬(i + 1 < v.length ∧ v.getD i 0 = v.getD (i + 1) 0) := by
          intro hc
          exact hi1 hc.1
        have ih := mergeLoop_eq v fuel (i + 1) (by omega)
        rw [hd, hd1]
        simp only [mergeLoop]
        rw [if_pos hi, if_neg hcond]
        simp only [ih, hd1, hgi]
        rfl
    · have hd : v.drop i = [] := List.drop_eq_nil_of_le (by omega)
      rw [hd]
      simp only [mergeLoop, if_neg hi]
      rfl

theorem mergeStep_eq_full (v : List Nat) : mergeStep v 0 = mergePairsFull v := by
  unfold mergeStep
  rw [mergeLoop_eq v v.length 0 (by omega), List.drop_zero]

theorem mergePairs_length_le : (l : List Nat) → (mergePairs l).length ≤ l.length
  | [] => by simp [mergePairs]
  | [_] => by simp [mergePairs]
  | a :: b :: t => by
    by_cases h : a = b
    · have := mergePairs_length_le t
      simp [mergePairs, h]
      omega
    · have := mergePairs_length_le (b :: t)
      simp [mergePairs, h]
      simpa using this

theorem mergePairs_eq_self_of_length :
    (l : List Nat) → (mergePairs l).length = l.length → mergePairs l = l
  | [] => fun _ => rfl
  | [_] => fun _ => rfl
  | a :: b :: t => by
    by_cases h : a = b
    · intro hlen
      exfalso
      have := mergePairs_length_le t
      simp [mergePairs, h] at hlen
      omega
    · intro hlen
      have : mergePairs (b :: t) = b :: t := by
        apply mergePairs_eq_self_of_length
        simpa [mergePairs, h] using hlen
      simp [mergePairs, h, this]

theorem mergePairs_ne_zero :
    (l : List Nat) → (∀ x ∈ l, x ≠ 0) → ∀ x ∈ mergePairs l, x ≠ 0
  | [] => by simp [mergePairs]
  | [a] => fun h => by simpa [mergePairs] using h
  | a :: b :: t => by
    intro h x hx
    by_cases hab : a = b
    · simp [mergePairs, hab] at hx
      rcases hx with hx | hx
      · have : b ≠ 0 := h b (by simp)
        omega
      · exact mergePairs_ne_zero t (fun y hy => h y (by simp [hy])) x hx
    · simp [mergePairs, hab] at hx
      rcases hx with hx | hx
      · subst hx
        exact h x (by simp)
      · exact mergePairs_ne_zero (b :: t) (fun y hy => h y (by simpa using Or.inr hy)) x hx

/-- The per-line no-movement test of the source is exact: the `moved`
bits computed for a line are all false iff the compacted-and-merged line,
padded back with the zeroes of the fresh `newGrid`, equals the original
line. -/
theorem line_noop_iff (l : List Nat) :
    ((List.range (mergePairs (l.filter (fun x => x != 0))).length).any
        (fun k => l.getD k 0 != (mergePairs (l.filter (fun x => x != 0))).getD k 0)
      || decide ((mergePairs (l.filter (fun x => x != 0))).length <
          (l.filter (fun x => x != 0)).length)) = false
    ↔ mergePairs (l.filter (fun x => x != 0)) ++
        List.replicate (l.length - (mergePairs (l.filter (fun x => x != 0))).length) 0 = l := by
  set f := l.filter (fun x => x != 0) with hf
  set m := mergePairs f with hm
  have hfpos : ∀ x ∈ f, x ≠ 0 := by
    intro x hx
    have := List.of_mem_filter hx
    simpa using this
  have hmpos : ∀ x ∈ m, x ≠ 0 := mergePairs_ne_zero f hfpos
  have hmf : m.length ≤ f.length := mergePairs_length_le f
  have hfl : f.length ≤ l.length := List.length_filter_le _ _
  constructor
  · intro h
    rw [Bool.or_eq_false_iff] at h
    obtain ⟨h1, h2⟩ := h
    have hlen : m.length = f.length := by
      have := of_decide_eq_false h2
      omega
    have hmeqf : m = f := by
      rw [hm]
      exact mergePairs_eq_self_of_length f (by rw [← hm, hlen])
    have hpre : ∀ k, k < m.length → l.getD k 0 = m.getD k 0 := by
      intro k hk
      rw [List.any_eq_false] at h1
      have := h1 k (List.mem_range.mpr hk)
      simpa using this
    have htake : l.take m.length = m := by
      apply List.ext_getElem
      · simp
        omega
      · intro i hi1 hi2
        have hil : i < l.length := by
          simp at hi1
          omega
        have := hpre i hi2
        rw [List.getD_eq_getElem l 0 hil, List.getD_eq_getElem m 0 hi2] at this
        simpa [List.getElem_take] using this
    have hdrop0 : ∀ x ∈ l.drop m.length, x = 0 := by
      have hsplit : l.take m.length ++ l.drop m.length = l := List.take_append_drop _ _
      have hfiltl : (l.take m.length).filter (fun x => x != 0) ++
          (l.drop m.length).filter (fun x => x != 0) = f := by
        rw [← List.filter_append, hsplit, hf]
      rw [htake] at hfiltl
      have hmfilt : m.filter (fun x => x != 0) = m := by
        rw [List.filter_eq_self]
        intro a ha
        simpa using hmpos a ha
      rw [hmfilt, ← hmeqf] at hfiltl
      have hnil : (l.drop m.length).filter (fun x => x != 0) = [] := by
        have hlen2 := congrArg List.length hfiltl
        rw [List.length_append] at hlen2
        apply List.eq_nil_of_length_eq_zero
        omega
      intro x hx
      by_contra hne
      have hmem : x ∈ (l.drop m.length).filter (fun x => x != 0) := by
        apply List.mem_filter.mpr
        exact ⟨hx, by simpa using hne⟩
      rw [hnil] at hmem
      exact (List.not_mem_nil x) hmem
    have hdrop : l.drop m.length = List.replicate (l.length - m.length) 0 := by
      have := List.eq_replicate_of_mem hdrop0
      simpa using this
    calc m ++ List.replicate (l.length - m.length) 0
        = l.take m.length ++ l.drop m.length := by rw [htake, hdrop]
      _ = l := List.take_append_drop _ _
  · intro h
    have hlfilt : f = m := by
      conv_lhs => rw [hf, ← h]
      rw [List.filter_append]
      have h1 : m.filter (fun x => x != 0) = m := by
        rw [List.filter_eq_self]
        intro a ha
        simpa using hmpos a ha
      have h2 : (List.replicate (l.length - m.length) (0 : Nat)).filter
          (fun x => x != 0) = [] := by
        rw [List.filter_eq_nil_iff]
        intro a ha
        have := List.eq_of_mem_replicate ha
        simp [this]
      rw [h1, h2, List.append_nil]
    rw [Bool.or_eq_false_iff]
    constructor
    · rw [List.any_eq_false]
      intro k hk
      have hk4 := List.mem_range.mp hk
      have hgd : l.getD k 0 = m.getD k 0 := by
        conv_lhs => rw [← h]
        exact List.getD_append _ _ _ _ hk4
      simp only [bne_iff_ne, ne_eq, not_not]
      exact hgd
    · have hlen3 : m.length = f.length := by rw [hlfilt]
      simp [hlen3]

/-- Specification-side statement that one line of the grid is left exactly
as it was by compacting and merging: the merged values padded back with
zeroes (as the source's zero-initialised `newGrid` does) equal the original
line read in traversal order. -/
def lineUnchanged (g : List (List Nat)) (vert dirPos : Bool) (idx : Nat) : Prop :=
  mergePairs ((readLine g vert dirPos idx).filter (fun x => x != 0)) ++
    List.replicate ((readLine g vert dirPos idx).length -
      (mergePairs ((readLine g vert dirPos idx).filter (fun x => x != 0))).length) 0 =
  readLine g vert dirPos idx

theorem processLine_moved_iff (g : List (List Nat)) (vert dirPos : Bool) (idx : Nat) :
    (processLine g vert dirPos idx).2.2.2 = false ↔ lineUnchanged g vert dirPos idx := by
  unfold processLine lineUnchanged
  simp only [mergeStep_eq_full, mergePairsFull_fst]
  exact line_noop_iff (readLine g vert dirPos idx)

theorem processLines_moved_iff (g : List (List Nat)) (vert dirPos : Bool) :
    (processLines g vert dirPos).2.2.2 = false ↔ ∀ idx < 4, lineUnchanged g vert dirPos idx := by
  unfold processLines
  rw [List.any_eq_false]
  constructor
  · intro hall idx hidx
    have := hall ((processLine g vert dirPos idx))
      (List.mem_map_of_mem _ (List.mem_range.mpr hidx))
    rw [← processLine_moved_iff]
    simpa using this
  · intro hall p hp
    rw [List.mem_map] at hp
    obtain ⟨idx, hidx, rfl⟩ := hp
    have := (processLine_moved_iff g vert dirPos idx).mpr
      (hall idx (List.mem_range.mp hidx))
    simp [this]

theorem commitIf_snd (s : GameState) (vert dirPos : Bool)
    (res : List (List Nat) × Int × Bool × Bool) (r : ℕ → ℚ) :
    (commitIf s vert dirPos res r).2 = res.2.2.2 := by
  unfold commitIf
  by_cases h : res.2.2.2 <;> simp [h]

theorem commitIf_of_not_moved (s : GameState) (vert dirPos : Bool)
    (res : List (List Nat) × Int × Bool × Bool) (r : ℕ → ℚ) (h : res.2.2.2 = false) :
    commitIf s vert dirPos res r = (s, false) := by
  unfold commitIf
  simp [h]

/-- Claim C5: in the 2048 engine, a move in one of the four directions whose
compacted-and-merged arrangement of every row or column equals the original
leaves the whole state unchanged (grid, score, high score, flags) and spawns
no tile (`move` returns the untouched state with `false`); and movement
detection is exact: `move` reports "no movement" precisely when every line
is unchanged in this sense. -/
theorem noop_move_exact (s : GameState) (dr dc : Int) (r : ℕ → ℚ)
    (hg : s.gameOver = false)
    (hd : (dr = 1 ∧ dc = 0) ∨ (dr = -1 ∧ dc = 0) ∨ (dr = 0 ∧ dc = 1) ∨ (dr = 0 ∧ dc = -1)) :
    ((move s dr dc r).2 = false ↔
      ∀ idx < 4, lineUnchanged s.grid (dr != 0) (dr == 1 || dc == 1) idx)
    ∧ ((∀ idx < 4, lineUnchanged s.grid (dr != 0) (dr == 1 || dc == 1) idx) →
        move s dr dc r = (s, false)) := by
  have key : move s dr dc r =
      commitIf s (dr != 0) (dr == 1 || dc == 1)
        (processLines s.grid (dr != 0) (dr == 1 || dc == 1)) r := by
    rcases hd with ⟨h1, h2⟩ | ⟨h1, h2⟩ | ⟨h1, h2⟩ | ⟨h1, h2⟩ <;> subst h1 <;> subst h2 <;>
      norm_num [move, hg] <;> rfl
  refine ⟨?_, ?_⟩
  · rw [key, commitIf_snd]
    exact processLines_moved_iff _ _ _
  · intro hall
    rw [key]
    exact commitIf_of_not_moved _ _ _ _ _ ((processLines_moved_iff _ _ _).mpr hall)

/-- Claim C5 witness: a fully checkerboarded grid moved left is a no-op. -/
theorem noop_move_exact_witness :
    move { grid := [[2, 4, 2, 4], [4, 2, 4, 2], [2, 4, 2, 4], [4, 2, 4, 2]],
           score := 5, highScore := 9, gameOver := false, won := false, paused := false,
           width := 36, height := 20 } 0 (-1) (fun _ => mkRat 1 2) =
      ({ grid := [[2, 4, 2, 4], [4, 2, 4, 2], [2, 4, 2, 4], [4, 2, 4, 2]],
         score := 5, highScore := 9, gameOver := false, won := false, paused := false,
         width := 36, height := 20 }, false) :=
  (noop_move_exact _ 0 (-1) _ rfl (by norm_num)).2
    (by intro idx hidx; interval_cases idx <;> rfl)

/-- Claim C6: the merge pass of `move` compacts the non-zero values in
traversal order and merges adjacent equal values pairwise left-to-right in
the compacted order with no chain merges (the fuel-indexed source loop
refines `mergePairs`); concretely, the row `[2,2,4,0]` moved toward the
zero-index edge becomes `[4,4,0,0]`, with no further merge of the two 4s. -/
theorem move_compacts_and_merges :
    (∀ v : List Nat, (mergeStep v 0).1 = mergePairs v)
    ∧ (processLine [[2, 2, 4, 0], [0, 0, 0, 0], [0, 0, 0, 0], [0, 0, 0, 0]] false false 0).1
        = [4, 4]
    ∧ (move { grid := [[2, 2, 4, 0], [0, 0, 0, 0], [0, 0, 0, 0], [0, 0, 0, 0]],
              score := 0, highScore := 0, gameOver := false, won := false, paused := false,
              width := 36, height := 20 } 0 (-1) (fun _ => mkRat 1 2)).1.grid.getD 0 []
        = [4, 4, 0, 0] := by
  refine ⟨fun v => ?_, by decide, by decide⟩
  rw [mergeStep_eq_full, mergePairsFull_fst]

end TwentyFortyEight

namespace DB

/-- The persisted `game_save` record of `db.ts`: the four scalar fields and
the two auxiliary high-score columns added by the migrations.  The
`updated_at` wall-clock timestamp is outside the shallow embedding. -/
structure SavedGame where
  highScore : Int
  currentLevel : Int
  currentScore : Int
  lives : Int
  snakeHighScore : Int
  flappyHighScore : Int
deriving Repr, DecidableEq

/-- `saveGame` of `db.ts`: overwrite the four scalar columns. -/
def saveGame (row : SavedGame) (highScore currentLevel currentScore lives : Int) : SavedGame :=
  { row with highScore := highScore, currentLevel := currentLevel,
             currentScore := currentScore, lives := lives }

/-- `resetProgress` of `db.ts`: `SET current_level = 1, current_score = 0,
lives = 3`, touching no other column. -/
def resetProgress (row : SavedGame) : SavedGame :=
  { row with currentLevel := 1, currentScore := 0, lives := 3 }

/-- Claim C9 counterexample: `resetProgress` does not zero the stored
level, score and lives; on the concrete record (7, 4, 120, 2, 11, 5) the
reset row has level 1 and lives 3, refuting "level = 0, score = 0,
lives = 0 after reset". -/
theorem resetProgress_not_zeroing :
    ¬((resetProgress ⟨7, 4, 120, 2, 11, 5⟩).currentLevel = 0
      ∧ (resetProgress ⟨7, 4, 120, 2, 11, 5⟩).currentScore = 0
      ∧ (resetProgress ⟨7, 4, 120, 2, 11, 5⟩).lives = 0) := by decide

/-- Claim C9 (amended): the reset operation sets the persisted level to 1,
the score to 0 and the lives to 3 (the schema's default values), while
preserving the high score and both auxiliary high scores. -/
theorem resetProgress_resets_to_defaults (row : SavedGame) :
    (resetProgress row).currentLevel = 1
    ∧ (resetProgress row).currentScore = 0
    ∧ (resetProgress row).lives = 3
    ∧ (resetProgress row).highScore = row.highScore
    ∧ (resetProgress row).snakeHighScore = row.snakeHighScore
    ∧ (resetProgress row).flappyHighScore = row.flappyHighScore :=
  ⟨rfl, rfl, rfl, rfl, rfl, rfl⟩

end DB

namespace Snake

/-- Integer grid position. -/
structure Pos where
  x : Int
  y : Int
deriving Repr, DecidableEq

/-- State of the Snake engine (`SnakeGameState` in `types.ts`); the head is
index 0 of `snake`. -/
structure GameState where
  snake : List Pos
  direction : Pos
  food : Pos
  score : Int
  highScore : Int
  gameOver : Bool
  paused : Bool
  width : Int
  height : Int
deriving Repr, DecidableEq

/-- One random candidate food cell: `Math.floor(Math.random()*(width-2))+1`
and the same for `y`, attempt `k` consuming draws `2k` and `2k+1`. -/
def foodCandidate (width height : Int) (r : ℕ → ℚ) (k : Nat) : Pos :=
  ⟨Rat.floor (r (2 * k) * ((width - 2 : Int) : ℚ)) + 1,
   Rat.floor (r (2 * k + 1) * ((height - 2 : Int) : ℚ)) + 1⟩

/-- Membership of a cell in the snake body (the source's string-keyed
`Set`). -/
def onSnake (snake : List Pos) (p : Pos) : Bool :=
  snake.any (fun s => s.x == p.x && s.y == p.y)

/-- The random phase of `spawnFood`: up to 100 attempts (the source's
`attempts` loop), returning the first candidate not on the snake. -/
def spawnTry (width height : Int) (snake : List Pos) (r : ℕ → ℚ) : Nat → Nat → Option Pos
  | 0, _ => none
  | fuel + 1, k =>
    let food := foodCandidate width height r k
    if onSnake snake food then spawnTry width height snake r fuel (k + 1)
    else some food

/-- The deterministic fallback scan of `spawnFood`: first free interior
cell, `y` from 1 to `height-2`, then `x` from 1 to `width-2`. -/
def scanFood (width height : Int) (snake : List Pos) : Option Pos :=
  (List.range (height - 2).toNat).findSome? (fun yi =>
    (List.range (width - 2).toNat).findSome? (fun xi =>
      let p : Pos := ⟨(xi : Int) + 1, (yi : Int) + 1⟩
      if onSnake snake p then none else some p))

/-- `spawnFood` of the snake engine: bounded random retry, then the
deterministic scan, then the ultimate fallback `(1,1)`. -/
def spawnFood (width height : Int) (snake : List Pos) (r : ℕ → ℚ) : Pos :=
  match spawnTry width height snake r 100 0 with
  | some f => f
  | none =>
    match scanFood width height snake with
    | some f => f
    | none => ⟨1, 1⟩

/-- `initSnake`: three vertically stacked segments at the board centre,
heading up.  Note the source seeds the food with `spawnFood(width, height,
[])` — the empty list, not the initial body. -/
def initSnake (width height : Int) (highScore : Int) (r : ℕ → ℚ) : GameState :=
  let startX := Int.ediv width 2
  let startY := Int.ediv height 2
  { snake := [⟨startX, startY⟩, ⟨startX, startY + 1⟩, ⟨startX, startY + 2⟩]
    direction := ⟨0, -1⟩
    food := spawnFood width height [] r
    score := 0, highScore := highScore
    gameOver := false, paused := false
    width := width, height := height }

/-- `updateSnake`: wall collision, then the self-collision loop over the
indices `0 ≤ i < snake.length - 1` (i.e. every segment except the final
tail element), then the move with food growth or tail drop. -/
def updateSnake (s : GameState) (r : ℕ → ℚ) : GameState :=
  if s.gameOver || s.paused then s
  else
    match s.snake with
    | [] => s
    | head :: _ =>
      let newHead : Pos := ⟨head.x + s.direction.x, head.y + s.direction.y⟩
      if newHead.x < 0 || newHead.x ≥ s.width || newHead.y < 0 || newHead.y ≥ s.height then
        {s with gameOver := true,
                highScore := if s.score > s.highScore then s.score else s.highScore}
      else if (s.snake.take (s.snake.length - 1)).any
          (fun seg => seg.x == newHead.x && seg.y == newHead.y) then
        {s with gameOver := true,
                highScore := if s.score > s.highScore then s.score else s.highScore}
      else
        let snake1 := newHead :: s.snake
        if newHead.x == s.food.x && newHead.y == s.food.y then
          let score1 := s.score + 10
          {s with snake := snake1, score := score1,
                  highScore := if score1 > s.highScore then score1 else s.highScore,
                  food := spawnFood s.width s.height snake1 r}
        else
          {s with snake := snake1.dropLast}

/-- `changeDirection`: reject exact 180° reversals, otherwise take effect
immediately. -/
def changeDirection (s : GameState) (dx dy : Int) : GameState :=
  if s.direction.x + dx = 0 ∧ s.direction.y + dy = 0 then s
  else {s with direction := ⟨dx, dy⟩}

/-- Claim C1: the self-collision loop runs `i` from 0 to
`snake.length - 2`, excluding the current tail.  At the failing input — a
4-segment snake looped so that the prospective head lands exactly on the
current tail cell — the engine does not set `gameOver` (the snake steps
onto the vacated tail cell), contradicting the claimed
compared-against-all-segments-including-the-tail rule and the source's own
"check all for strictness" comment. -/
theorem selfCollision_tail_excluded :
    (updateSnake { snake := [⟨2, 2⟩, ⟨3, 2⟩, ⟨3, 3⟩, ⟨2, 3⟩]
                   direction := ⟨0, 1⟩
                   food := ⟨7, 7⟩
                   score := 0
                   highScore := 0
                   gameOver := false
                   paused := false
                   width := 10
                   height := 10 } (fun _ => mkRat 1 2)).gameOver = false
    ∧ (updateSnake { snake := [⟨2, 2⟩, ⟨3, 2⟩, ⟨3, 3⟩, ⟨2, 3⟩]
                     direction := ⟨0, 1⟩
                     food := ⟨7, 7⟩
                     score := 0
                     highScore := 0
                     gameOver := false
                     paused := false
                     width := 10
                     height := 10 } (fun _ => mkRat 1 2)).snake
      = [⟨2, 3⟩, ⟨2, 2⟩, ⟨3, 2⟩, ⟨3, 3⟩] := by decide

/-- Claim C3: `initSnake` seeds the food by calling `spawnFood` with the
empty list instead of the initial body, so the initial food can land on a
snake segment: on a 10×10 board with every random draw equal to 1/2, the
food is spawned at (5,5), which is the initial head segment. -/
theorem initSnake_food_on_snake :
    (initSnake 10 10 0 (fun _ => mkRat 1 2)).food = ⟨5, 5⟩
    ∧ ⟨5, 5⟩ ∈ (initSnake 10 10 0 (fun _ => mkRat 1 2)).snake := by decide

end Snake

namespace Flappy

/-- A pipe (`Pipe` in `types.ts`): horizontal position (real-valued, it
moves by 0.5 per tick), top of the gap, gap height, and the per-pipe
"already scored" flag. -/
structure Pipe where
  x : ℚ
  gapY : Int
  gapHeight : Int
  passed : Bool
deriving Repr, DecidableEq

/-- State of the Flappy engine (`FlappyGameState` in `types.ts`). -/
structure GameState where
  birdY : ℚ
  velocity : ℚ
  pipes : List Pipe
  score : Int
  highScore : Int
  gameOver : Bool
  paused : Bool
  width : Int
  height : Int
  tickCount : Int
deriving Repr, DecidableEq

/-- `initFlappy` (the height parameter is already integral here, so the
source's `Math.floor(height)` is the identity). -/
def initFlappy (width height : Int) (highScore : Int) : GameState :=
  { birdY := ((Int.ediv height 2 : Int) : ℚ)
    velocity := 0
    pipes := []
    score := 0, highScore := highScore
    gameOver := false, paused := false
    width := width, height := height
    tickCount := 0 }

/-- `jump`: an instantaneous negative-velocity impulse (-0.8), inert while
paused or over. -/
def jump (s : GameState) : GameState :=
  if s.gameOver || s.paused then s
  else {s with velocity := mkRat (-4) 5}

/-- The pipe spawned at the right edge when `tickCount % 60 === 1`:
`gapY = floor(rand * (maxGapY - minGapY + 1)) + minGapY` with
`minGapY = 2` and `maxGapY = height - 6 - 2` (draw `r 0`). -/
def spawnPipe (s : GameState) (r : ℕ → ℚ) : Pipe :=
  let minGapY : Int := 2
  let maxGapY : Int := s.height - 6 - 2
  { x := ((s.width : Int) : ℚ)
    gapY := Rat.floor (r 0 * ((maxGapY - minGapY + 1 : Int) : ℚ)) + minGapY
    gapHeight := 6
    passed := false }

/-- The pipe list entering the per-pipe loop of `updateFlappy`: the freshly
pushed pipe is appended before the loop runs. -/
def spawnList (s : GameState) (r : ℕ → ℚ) : List Pipe :=
  if (s.tickCount + 1) % 60 == 1 then s.pipes ++ [spawnPipe s r] else s.pipes

/-- The backwards pipe loop of `updateFlappy` (movement, off-screen
removal, scoring guarded by `passed`, collision), threading the score,
high-score and game-over accumulators.  The source iterates from the last
index down to index 0, so the recursion processes the tail's results
first and then the head pipe. -/
def pipesLoop (birdX : Int) (birdY : ℚ) :
    List Pipe → Int × Int × Bool → List Pipe × (Int × Int × Bool)
  | [], acc => ([], acc)
  | p :: rest, acc =>
    let restRes := pipesLoop birdX birdY rest acc
    let restOut := restRes.1
    let x1 := p.x - mkRat 1 2
    if x1 < (-4 : ℚ) then (restOut, restRes.2)
    else
      let sc := restRes.2.1
      let hs := restRes.2.2.1
      let ov := restRes.2.2.2
      let scored := !p.passed && decide (x1 < ((birdX : Int) : ℚ))
      let sc2 := if scored then sc + 1 else sc
      let hs2 := if scored then (if sc2 > hs then sc2 else hs) else hs
      let px := Rat.floor x1
      let hit := (px == birdX || px + 1 == birdX)
        && (decide (birdY < ((p.gapY : Int) : ℚ))
            || decide (birdY ≥ ((p.gapY + p.gapHeight : Int) : ℚ)))
      ({ p with x := x1, passed := p.passed || scored } :: restOut, (sc2, hs2, ov || hit))

/-- `updateFlappy`: gravity and clamped fall speed, bird integration, pipe
spawn at the tick modulus, the pipe loop, then the ground/ceiling check. -/
def updateFlappy (s : GameState) (r : ℕ → ℚ) : GameState :=
  if s.gameOver || s.paused then s
  else
    let tc := s.tickCount + 1
    let v1 := s.velocity + mkRat 3 20
    let v2 := if v1 > mkRat 6 5 then mkRat 6 5 else v1
    let by2 := s.birdY + v2
    let pipes0 := spawnList s r
    let birdX := Int.ediv s.width 4
    let res := pipesLoop birdX by2 pipes0 (s.score, s.highScore, false)
    let overGround := decide (by2 < 0) || decide (by2 ≥ ((s.height : Int) : ℚ))
    { s with tickCount := tc, velocity := v2, birdY := by2,
             pipes := res.1, score := res.2.1, highScore := res.2.2.1,
             gameOver := res.2.2.2 || overGround }

/-- One tick's effect on a single pipe: removed when its new position is
past `-4`. -/
def pipeRemoved (p : Pipe) : Bool :=
  decide (p.x - mkRat 1 2 < (-4 : ℚ))

/-- A pipe scores on this tick: it survives, was not yet marked `passed`,
and its new position has crossed the bird's fixed lane. -/
def pipeFlips (birdX : Int) (p : Pipe) : Bool :=
  !pipeRemoved p && !p.passed && decide (p.x - mkRat 1 2 < ((birdX : Int) : ℚ))

/-- A surviving pipe's collision test on this tick. -/
def pipeCollides (birdX : Int) (birdY : ℚ) (p : Pipe) : Bool :=
  !pipeRemoved p
    && (Rat.floor (p.x - mkRat 1 2) == birdX || Rat.floor (p.x - mkRat 1 2) + 1 == birdX)
    && (decide (birdY < ((p.gapY : Int) : ℚ))
        || decide (birdY ≥ ((p.gapY + p.gapHeight : Int) : ℚ)))

/-- The surviving pipes after one tick: advanced by 0.5, `passed` becoming
`passed ∨ (new x < birdX)` — monotone, set exactly at the first lane
crossing. -/
def pipesOut (birdX : Int) (l : List Pipe) : List Pipe :=
  l.filterMap (fun p =>
    if pipeRemoved p then none
    else some { p with x := p.x - mkRat 1 2,
                       passed := p.passed || decide (p.x - mkRat 1 2 < ((birdX : Int) : ℚ)) })

theorem pipesLoop_pipes (birdX : Int) (birdY : ℚ) :
    ∀ (l : List Pipe) (acc : Int × Int × Bool),
      (pipesLoop birdX birdY l acc).1 = pipesOut birdX l
  | [], _ => rfl
  | p :: rest, acc => by
    simp only [pipesLoop]
    by_cases hx : (p.x - mkRat 1 2 < (-4 : ℚ))
    · rw [if_pos hx]
      have hrem : pipeRemoved p = true := decide_eq_true hx
      simp [pipesOut, List.filterMap_cons, hrem, pipesLoop_pipes birdX birdY rest acc]
    · rw [if_neg hx]
      have hrem : pipeRemoved p = false := by
        simpa [pipeRemoved] using hx
      simp only [pipesOut, List.filterMap_cons, hrem, Bool.false_eq_true, if_false]
      rw [show (pipesLoop birdX birdY rest acc).1 = pipesOut birdX rest from
        pipesLoop_pipes birdX birdY rest acc]
      simp only [pipesOut, List.cons.injEq]
      refine ⟨?_, by simp⟩
      cases p.passed <;> simp

theorem pipesLoop_score (birdX : Int) (birdY : ℚ) :
    ∀ (l : List Pipe) (sc hs : Int) (ov : Bool),
      (pipesLoop birdX birdY l (sc, hs, ov)).2.1 =
        sc + ((l.filter (pipeFlips birdX)).length : Int)
  | [], _, _, _ => by simp [pipesLoop]
  | p :: rest, sc, hs, ov => by
    have ih := pipesLoop_score birdX birdY rest sc hs ov
    simp only [pipesLoop]
    by_cases hx : (p.x - mkRat 1 2 < (-4 : ℚ))
    · rw [if_pos hx]
      have hrem : pipeRemoved p = true := decide_eq_true hx
      have hflip : pipeFlips birdX p = false := by simp [pipeFlips, hrem]
      simp [List.filter_cons, hflip, ih]
    · rw [if_neg hx]
      have hrem : pipeRemoved p = false := by
        simpa [pipeRemoved] using hx
      have hflip : pipeFlips birdX p
          = (!p.passed && decide (p.x - mkRat 1 2 < ((birdX : Int) : ℚ))) := by
        simp [pipeFlips, hrem]
      by_cases hsc : (!p.passed && decide (p.x - mkRat 1 2 < ((birdX : Int) : ℚ))) = true
      · rw [if_pos hsc, ih, List.filter_cons,
          if_pos (show pipeFlips birdX p = true by rw [hflip]; exact hsc)]
        rw [show ∀ l : List Pipe, (p :: l).length = l.length + 1 from fun _ => rfl]
        push_cast
        ring
      · have hsc2 : (!p.passed && decide (p.x - mkRat 1 2 < ((birdX : Int) : ℚ))) = false :=
          Bool.eq_false_iff.mpr hsc
        simp [hsc2, ih, List.filter_cons, hflip]

/-- Claim C8: in one Flappy tick from a playable state, the surviving pipes
are exactly the advanced pipes with `passed` becoming `passed ∨ (new x <
birdX)` — the flag is monotone, never reset, and flips false→true exactly
when the pipe first crosses the bird's fixed horizontal lane — and the
score increases by exactly the number of pipes whose flag flips on this
tick; a pipe whose `passed` flag is already true never scores again. -/
theorem pipe_scoring (s : GameState) (r : ℕ → ℚ)
    (hg : s.gameOver = false) (hp : s.paused = false) :
    (updateFlappy s r).pipes = pipesOut (Int.ediv s.width 4) (spawnList s r)
    ∧ (updateFlappy s r).score = s.score
        + (((spawnList s r).filter (pipeFlips (Int.ediv s.width 4))).length : Int)
    ∧ ∀ p ∈ spawnList s r, p.passed = true → pipeFlips (Int.ediv s.width 4) p = false := by
  have hcond : (s.gameOver || s.paused) = false := by rw [hg, hp]; rfl
  refine ⟨?_, ?_, ?_⟩
  · simp only [updateFlappy, hcond, Bool.false_eq_true, if_false]
    exact pipesLoop_pipes _ _ _ _
  · simp only [updateFlappy, hcond, Bool.false_eq_true, if_false]
    exact pipesLoop_score _ _ _ _ _ _
  · intro p _ hpass
    simp [pipeFlips, hpass]

/-- A concrete Flappy state exercising claim C8's witness: one unpassed
pipe about to cross the lane, two already-passed pipes (one at the removal
boundary), one pipe past it, and a tick count that triggers a spawn. -/
def witState : GameState :=
  { birdY := 7
    velocity := 0
    pipes := [⟨mkRat 19 2, 2, 6, false⟩, ⟨mkRat 19 2, 2, 6, true⟩,
              ⟨mkRat (-7) 2, 2, 6, true⟩, ⟨mkRat (-8) 2, 2, 6, true⟩]
    score := 3
    highScore := 3
    gameOver := false
    paused := false
    width := 40
    height := 16
    tickCount := 0 }

/-- Claim C8 witness: the theorem instantiated at `witState` (one flip this
tick), with the concrete score evaluated. -/
theorem pipe_scoring_witness :
    ((updateFlappy witState (fun _ => mkRat 1 2)).pipes
        = pipesOut (Int.ediv witState.width 4) (spawnList witState (fun _ => mkRat 1 2))
      ∧ (updateFlappy witState (fun _ => mkRat 1 2)).score = witState.score
          + (((spawnList witState (fun _ => mkRat 1 2)).filter
              (pipeFlips (Int.ediv witState.width 4))).length : Int)
      ∧ ∀ p ∈ spawnList witState (fun _ => mkRat 1 2), p.passed = true →
          pipeFlips (Int.ediv witState.width 4) p = false)
    ∧ (updateFlappy witState (fun _ => mkRat 1 2)).score = 4 :=
  ⟨pipe_scoring witState (fun _ => mkRat 1 2) rfl rfl, by decide⟩

end Flappy

namespace Invaders

/-- Integer screen position. -/
structure Pos where
  x : Int
  y : Int
deriving Repr, DecidableEq

/-- Renderable entity (`Entity` in `types.ts`). -/
structure Entity where
  pos : Pos
  char : String
  color : String
deriving Repr, DecidableEq

/-- A shield with 0–4 health. -/
structure Shield where
  pos : Pos
  health : Int
deriving Repr, DecidableEq

/-- The bonus UFO. -/
structure UFO where
  pos : Pos
  active : Bool
  points : Int
deriving Repr, DecidableEq

/-- A transient explosion with its animation frame. -/
structure Explosion where
  pos : Pos
  frame : Int
deriving Repr, DecidableEq

/-- State of the full Space-Invaders engine (`GameState` in `types.ts`). -/
structure GameState where
  player : Entity
  enemies : List Entity
  bullets : List Entity
  enemyBullets : List Entity
  shields : List Shield
  ufo : UFO
  explosions : List Explosion
  score : Int
  highScore : Int
  lives : Int
  level : Int
  gameOver : Bool
  won : Bool
  paused : Bool
  width : Int
  height : Int
  enemyDirection : Int
  tickCount : Int
deriving Repr, DecidableEq

/-- `ALIEN_SPRITES`: two animation chars, colour, row point value. -/
def alienSprites : List (List String × String × Int) :=
  [(["⟨◉⟩", "⟩◉⟨"], "#FF00FF", 30),
   (["⌐█⌐", "¬█¬"], "#00FFFF", 20),
   (["⌐█⌐", "¬█¬"], "#00FFFF", 20),
   (["/▼\\", "\\▼/"], "#00FF00", 10),
   (["/▼\\", "\\▼/"], "#00FF00", 10)]

/-- Per-level difficulty configuration (`getLevelConfig`).  The source's
`Math.floor` divisions of nonnegative operands are `Int.ediv`; the decimal
constants 0.02/0.01/0.1 are exact rationals. -/
structure LevelConfig where
  enemyRows : Int
  enemyCols : Int
  baseSpeed : Int
  shootChance : ℚ
  maxEnemyBullets : Int
deriving Repr, DecidableEq

def getLevelConfig (level : Int) : LevelConfig :=
  { enemyRows := min 5 (3 + Int.ediv (level - 1) 3)
    enemyCols := min 10 (5 + Int.ediv (level - 1) 2)
    baseSpeed := max 2 (6 - Int.ediv level 2)
    shootChance := min (mkRat 1 10) (mkRat 1 50 + (level : ℚ) * mkRat 1 100)
    maxEnemyBullets := min 6 (2 + Int.ediv level 2) }

/-- `createInitialState`: board clamped to [40,60]×[16,22], enemy grid with
row-indexed sprites, four shields, player at centre, 3 lives. -/
def createInitialState (termWidth termHeight level highScore : Int) : GameState :=
  let config := getLevelConfig level
  let gameWidth := min 60 (max 40 (termWidth - 10))
  let gameHeight := min 22 (max 16 (termHeight - 12))
  let enemyCols := min config.enemyCols (Int.ediv (gameWidth - 16) 5)
  let enemyRows := config.enemyRows
  let startX := Int.ediv (gameWidth - enemyCols * 5) 2
  let enemies := (List.range enemyRows.toNat).flatMap (fun row =>
    let spriteIndex := min row (alienSprites.length - 1)
    let sprite := alienSprites.getD spriteIndex ([], "", 0)
    (List.range enemyCols.toNat).map (fun col =>
      { pos := ⟨startX + (col : Int) * 5, 2 + (row : Int) * 2⟩
        char := sprite.1.getD 0 ""
        color := sprite.2.1 }))
  let shieldSpacing := Int.ediv gameWidth 5
  let shields := (List.range 4).map (fun i =>
    ({ pos := ⟨shieldSpacing + (i : Int) * shieldSpacing, gameHeight - 7⟩, health := 4 } : Shield))
  { player := { pos := ⟨Int.ediv gameWidth 2 - 2, gameHeight - 2⟩, char := "╔▲╗", color := "#00FF88" }
    enemies := enemies
    bullets := []
    enemyBullets := []
    shields := shields
    ufo := { pos := ⟨-5, 0⟩, active := false, points := 0 }
    explosions := []
    score := 0, highScore := highScore
    lives := 3, level := level
    gameOver := false, won := false, paused := false
    width := gameWidth, height := gameHeight
    enemyDirection := 1
    tickCount := 0 }

/-- `movePlayer`: clamped to `1 ≤ newX < width - 2`; not gated by any
terminal or pause flag. -/
def movePlayer (s : GameState) (direction : Int) : GameState :=
  let newX := s.player.pos.x + direction
  if 1 ≤ newX ∧ newX < s.width - 2 then
    {s with player := {s.player with pos := ⟨newX, s.player.pos.y⟩}}
  else s

/-- `shoot`: silent no-op when three player bullets are already on screen,
otherwise push a new bullet above the player; not gated by any flag. -/
def shoot (s : GameState) : GameState :=
  if s.bullets.length ≥ 3 then s
  else {s with bullets := s.bullets ++
    [{ pos := ⟨s.player.pos.x + 1, s.player.pos.y - 1⟩, char := "│", color := "#FFFF00" }]}

/-- `spawnUFO` (draws `r 0` for the spawn chance, `r 1` for the points). -/
def spawnUFO (s : GameState) (r : ℕ → ℚ) : GameState :=
  let ufoChance := mkRat 1 1000 + (s.level : ℚ) * mkRat 1 2000
  if !s.ufo.active && decide (r 0 < ufoChance) then
    {s with ufo := { pos := ⟨-4, s.ufo.pos.y⟩, active := true,
                     points := [(50 : Int), 100, 150, 300].getD (Rat.floor (r 1 * 4)).toNat 0 }}
  else s

/-- The bottom-most-per-column map of `enemyShoot`, as an association list
in the JS `Map`'s key-first-insertion order: a later enemy of the same
column replaces the value in place when strictly lower (greater `y`). -/
def insertColumn (acc : List (Int × Entity)) (col : Int) (e : Entity) : List (Int × Entity) :=
  match acc.find? (fun kv => kv.1 == col) with
  | none => acc ++ [(col, e)]
  | some kv =>
    if e.pos.y > kv.2.pos.y then
      acc.map (fun kv2 => if kv2.1 == col then (col, e) else kv2)
    else acc

def columnsOf : List Entity → List (Int × Entity) → List (Int × Entity)
  | [], acc => acc
  | e :: rest, acc => columnsOf rest (insertColumn acc (Int.ediv e.pos.x 5) e)

/-- `enemyShoot` (draws `r 2` for the chance gate, `r 3` for the shooter
index): fires from a random bottom-most-per-column enemy when fewer than
`maxEnemyBullets` are in flight. -/
def enemyShoot (s : GameState) (r : ℕ → ℚ) : GameState :=
  let config := getLevelConfig s.level
  if s.enemyBullets.length ≥ config.maxEnemyBullets.toNat ∨ s.enemies = [] then s
  else if r 2 > config.shootChance then s
  else
    let bottomEnemies := (columnsOf s.enemies []).map (fun kv => kv.2)
    match bottomEnemies with
    | [] => s
    | _ :: _ =>
      let shooter := bottomEnemies.getD
        (Rat.floor (r 3 * (bottomEnemies.length : ℚ))).toNat ⟨⟨0, 0⟩, "", ""⟩
      {s with enemyBullets := s.enemyBullets ++
        [{ pos := ⟨shooter.pos.x + 1, shooter.pos.y + 1⟩, char := "▼", color := "#FF4444" }]}

/-- `getEnemyMoveInterval`: `max(3, floor(baseSpeed * remaining/total))`.
The float product-quotient of these small integers is exactly
`Int.ediv (baseSpeed * remaining) total` (`total > 0` for every level the
host can produce). -/
def getEnemyMoveInterval (s : GameState) : Int :=
  let config := getLevelConfig s.level
  let totalEnemies := config.enemyRows * config.enemyCols
  max 3 (Int.ediv (config.baseSpeed * (s.enemies.length : Int)) totalEnemies)

/-- The last (highest-index) enemy hit by a bullet, with its index —
the source's inner loop runs from the last index downwards and `break`s
at the first match. -/
def findLastHit (b : Entity) : List Entity → Option (Nat × Entity)
  | [] => none
  | e :: rest =>
    match findLastHit b rest with
    | some (i, e2) => some (i + 1, e2)
    | none =>
      if b.pos.y == e.pos.y && e.pos.x ≤ b.pos.x && b.pos.x ≤ e.pos.x + 2 then
        some (0, e)
      else none

/-- First shield (in order) absorbing a bullet at `b`'s position; returns
the updated shield list. -/
def shieldHit (b : Entity) : List Shield → Option (List Shield)
  | [] => none
  | sh :: rest =>
    if sh.health > 0 && b.pos.y == sh.pos.y
        && sh.pos.x - 2 ≤ b.pos.x && b.pos.x ≤ sh.pos.x + 2 then
      some ({sh with health := sh.health - 1} :: rest)
    else (shieldHit b rest).map (fun r2 => sh :: r2)

/-- The player-bullet collision loop, processing the bullets from the last
index to the first (the source's backwards loop), with `s.bullets` holding
the accumulated survivors.  An enemy hit `splice`s the bullet but the
source still runs the shield loop on the same (already removed) bullet: a
further shield match then `splice`s at the same index, which by then holds
the next surviving bullet — mirrored by dropping the head of the
accumulated survivors. -/
def pbLoop (cols : Int) : List Entity → GameState → GameState
  | [], st => st
  | b :: rest, st =>
    let st1 := pbLoop cols rest st
    if st1.ufo.active && b.pos.y == st1.ufo.pos.y
        && st1.ufo.pos.x ≤ b.pos.x && b.pos.x < st1.ufo.pos.x + 3 then
      {st1 with explosions := st1.explosions ++ [⟨⟨st1.ufo.pos.x + 1, st1.ufo.pos.y⟩, 0⟩],
                score := st1.score + st1.ufo.points,
                ufo := {st1.ufo with active := false}}
    else
      match findLastHit b st1.enemies with
      | some (ei, e) =>
        let row := Int.tmod (Int.ediv (ei : Int) cols) 5
        let pts := match alienSprites.get? row.toNat with
          | some sp => sp.2.2
          | none => 10
        let st2 := {st1 with
          enemies := st1.enemies.eraseIdx ei,
          explosions := st1.explosions ++ [⟨⟨e.pos.x + 1, e.pos.y⟩, 0⟩],
          score := st1.score + pts}
        match shieldHit b st2.shields with
        | some sh2 => {st2 with shields := sh2, bullets := st2.bullets.drop 1}
        | none => st2
      | none =>
        match shieldHit b st1.shields with
        | some sh2 => {st1 with shields := sh2}
        | none => {st1 with bullets := b :: st1.bullets}

/-- Player-bullet collision phase over the whole bullet list. -/
def pbPhase (s : GameState) (cols : Int) : GameState :=
  pbLoop cols s.bullets {s with bullets := []}

/-- The enemy-bullet collision loop (backwards): player hit consumes the
bullet, costs a life, respawns the player at the centre and commits the
high score on the last life; otherwise the shields absorb. -/
def ebLoop : List Entity → GameState → GameState
  | [], st => st
  | b :: rest, st =>
    let st1 := ebLoop rest st
    if b.pos.y == st1.player.pos.y
        && st1.player.pos.x ≤ b.pos.x && b.pos.x ≤ st1.player.pos.x + 2 then
      let lives2 := st1.lives - 1
      let st2 := {st1 with
        lives := lives2
        explosions := st1.explosions ++ [⟨⟨st1.player.pos.x, st1.player.pos.y⟩, 0⟩]
        player := {st1.player with pos := ⟨Int.ediv st1.width 2, st1.player.pos.y⟩}}
      if lives2 ≤ 0 then
        {st2 with gameOver := true,
                  highScore := if st2.score > st2.highScore then st2.score else st2.highScore}
      else st2
    else
      match shieldHit b st1.shields with
      | some sh2 => {st1 with shields := sh2}
      | none => {st1 with enemyBullets := b :: st1.enemyBullets}

/-- Enemy-bullet collision phase over the whole enemy-bullet list. -/
def ebPhase (s : GameState) : GameState :=
  ebLoop s.enemyBullets {s with enemyBullets := []}

/-- One animated enemy: row-indexed sprite frame (`i` is the index in the
current enemy array). -/
def animateEnemy (enemyCols : Int) (animFrame : Int) (i : Nat) (e : Entity) : Entity :=
  let row := Int.tmod (Int.ediv (i : Int) enemyCols) 5
  match alienSprites.get? row.toNat with
  | some sp => {e with char := sp.1.getD animFrame.toNat ""}
  | none => e

/-- Sprite animation phase (every 10 ticks). -/
def animatePhase (enemyCols : Int) (s : GameState) : GameState :=
  if s.tickCount % 10 == 0 then
    let animFrame := (Int.ediv s.tickCount 10) % 2
    {s with enemies := (List.range s.enemies.length).filterMap (fun i =>
      (s.enemies.get? i).map (fun e => animateEnemy enemyCols animFrame i e))}
  else s

/-- Explosion ageing: increment the frame, remove at the last frame. -/
def stepExplosion (e : Explosion) : Option Explosion :=
  if e.frame + 1 ≥ 4 then none else some {e with frame := e.frame + 1}

/-- Explosion phase (every tick). -/
def explosionsPhase (s : GameState) : GameState :=
  {s with explosions := s.explosions.filterMap stepExplosion}

/-- UFO phase (every 3 ticks): advance an active UFO one cell right
(deactivating past the right edge) or try a probabilistic spawn. -/
def ufoPhase (s : GameState) (r : ℕ → ℚ) : GameState :=
  if s.tickCount % 3 == 0 then
    if s.ufo.active then
      let ux := s.ufo.pos.x + 1
      if ux > s.width then
        {s with ufo := { pos := ⟨ux, s.ufo.pos.y⟩, active := false, points := s.ufo.points }}
      else {s with ufo := {s.ufo with pos := ⟨ux, s.ufo.pos.y⟩}}
    else spawnUFO s r
  else s

/-- Move one player bullet up, removing it above the board. -/
def stepPlayerBullet (b : Entity) : Option Entity :=
  if b.pos.y - 1 < 0 then none else some {b with pos := ⟨b.pos.x, b.pos.y - 1⟩}

/-- Player bullets move every tick. -/
def playerBulletMovePhase (s : GameState) : GameState :=
  {s with bullets := s.bullets.filterMap stepPlayerBullet}

/-- Move one enemy bullet down, removing it below the board. -/
def stepEnemyBullet (h : Int) (b : Entity) : Option Entity :=
  if b.pos.y + 1 ≥ h then none else some {b with pos := ⟨b.pos.x, b.pos.y + 1⟩}

/-- Enemy bullets move every 3 ticks. -/
def enemyBulletMovePhase (s : GameState) : GameState :=
  if s.tickCount % 3 == 0 then
    {s with enemyBullets := s.enemyBullets.filterMap (stepEnemyBullet s.height)}
  else s

/-- The tick-counter increment opening `update`. -/
def tickInc (s : GameState) : GameState :=
  {s with tickCount := s.tickCount + 1}

/-- The clamped enemy-column count `update` recomputes each tick. -/
def colsOf (s : GameState) : Int :=
  min (getLevelConfig s.level).enemyCols (Int.ediv (s.width - 16) 5)

/-- Enemy shooting phase (every 8 ticks). -/
def shootPhase (s : GameState) (r : ℕ → ℚ) : GameState :=
  if s.tickCount % 8 == 0 then enemyShoot s r else s

/-- Everything `update` does before the win check, in source order:
tick increment, sprite animation (every 10 ticks), explosion ageing, UFO
advance/spawn (every 3), player-bullet movement, enemy-bullet movement
(every 3), enemy shooting (every 8), player-bullet collisions, enemy-bullet
collisions. -/
def tickPhase (s : GameState) (r : ℕ → ℚ) : GameState :=
  ebPhase (pbPhase
    (shootPhase
      (enemyBulletMovePhase
        (playerBulletMovePhase
          (ufoPhase
            (explosionsPhase
              (animatePhase (colsOf (tickInc s)) (tickInc s)))
            r)))
      r)
    (colsOf (tickInc s)))

/-- The win commit of `update` (lines 309-317): set `won`, add the
`100×level` bonus, commit the high score. -/
def winCommit (m : GameState) : GameState :=
  let sc := m.score + 100 * m.level
  {m with won := true, score := sc,
          highScore := if sc > m.highScore then sc else m.highScore}

/-- One step of the descend loop: enemies drop one row in order, stopping
(with the remaining enemies not yet dropped) at the first enemy reaching
the danger row. -/
def descend (h : Int) : List Entity → List Entity × Bool
  | [] => ([], false)
  | e :: rest =>
    let e2 := {e with pos := ⟨e.pos.x, e.pos.y + 1⟩}
    if e2.pos.y ≥ h - 4 then (e2 :: rest, true)
    else
      let d := descend h rest
      (e2 :: d.1, d.2)

/-- The enemy sweep of `update`: every `moveInterval` ticks either descend
(reversing the global direction first, game over at the danger row) or
translate horizontally. -/
def enemyMovePhase (m : GameState) : GameState :=
  let moveInterval := getEnemyMoveInterval m
  if m.tickCount % moveInterval == 0 then
    let shouldDescend := m.enemies.any (fun e =>
      (m.enemyDirection == 1 && decide (e.pos.x ≥ m.width - 4))
        || (m.enemyDirection == -1 && decide (e.pos.x ≤ 1)))
    if shouldDescend then
      let m2 := {m with enemyDirection := -m.enemyDirection}
      let d := descend m2.height m2.enemies
      if d.2 then
        {m2 with enemies := d.1, gameOver := true,
                 highScore := if m2.score > m2.highScore then m2.score else m2.highScore}
      else {m2 with enemies := d.1}
    else
      {m with enemies := m.enemies.map (fun e =>
        {e with pos := ⟨e.pos.x + m.enemyDirection, e.pos.y⟩})}
  else m

/-- `update`: frozen on any terminal or pause flag, otherwise the tick
phase, then the win check (which returns), then the enemy sweep. -/
def update (s : GameState) (r : ℕ → ℚ) : GameState :=
  if s.gameOver || s.won || s.paused then s
  else
    let m := tickPhase s r
    if m.enemies.isEmpty then winCommit m
    else enemyMovePhase m

/-- States of the Space-Invaders engine reachable from an initial state by
any sequence of the move/fire intents and update ticks (with any random
draws). -/
inductive Reachable : GameState → Prop
  | init (termWidth termHeight level highScore : Int) :
      Reachable (createInitialState termWidth termHeight level highScore)
  | move (s : GameState) (d : Int) (hd : d = 1 ∨ d = -1) (hr : Reachable s) :
      Reachable (movePlayer s d)
  | fire (s : GameState) (hr : Reachable s) : Reachable (shoot s)
  | tick (s : GameState) (r : ℕ → ℚ) (hr : Reachable s) : Reachable (update s r)

theorem animatePhase_invar (cols : Int) (s : GameState) :
    (animatePhase cols s).score = s.score ∧ (animatePhase cols s).highScore = s.highScore
    ∧ (animatePhase cols s).level = s.level ∧ (animatePhase cols s).bullets = s.bullets := by
  unfold animatePhase
  split <;> exact ⟨rfl, rfl, rfl, rfl⟩

theorem explosionsPhase_invar (s : GameState) :
    (explosionsPhase s).score = s.score ∧ (explosionsPhase s).highScore = s.highScore
    ∧ (explosionsPhase s).level = s.level ∧ (explosionsPhase s).bullets = s.bullets :=
  ⟨rfl, rfl, rfl, rfl⟩

theorem ufoPhase_invar (s : GameState) (r : ℕ → ℚ) :
    (ufoPhase s r).score = s.score ∧ (ufoPhase s r).highScore = s.highScore
    ∧ (ufoPhase s r).level = s.level ∧ (ufoPhase s r).bullets = s.bullets := by
  unfold ufoPhase spawnUFO
  dsimp only
  repeat' split
  all_goals exact ⟨rfl, rfl, rfl, rfl⟩

theorem playerBulletMovePhase_invar (s : GameState) :
    (playerBulletMovePhase s).score = s.score
    ∧ (playerBulletMovePhase s).highScore = s.highScore
    ∧ (playerBulletMovePhase s).level = s.level
    ∧ (playerBulletMovePhase s).bullets.length ≤ s.bullets.length :=
  ⟨rfl, rfl, rfl, List.length_filterMap_le _ _⟩

theorem enemyBulletMovePhase_invar (s : GameState) :
    (enemyBulletMovePhase s).score = s.score
    ∧ (enemyBulletMovePhase s).highScore = s.highScore
    ∧ (enemyBulletMovePhase s).level = s.level
    ∧ (enemyBulletMovePhase s).bullets = s.bullets := by
  unfold enemyBulletMovePhase
  split <;> exact ⟨rfl, rfl, rfl, rfl⟩

theorem enemyShoot_invar (s : GameState) (r : ℕ → ℚ) :
    (enemyShoot s r).score = s.score ∧ (enemyShoot s r).highScore = s.highScore
    ∧ (enemyShoot s r).level = s.level ∧ (enemyShoot s r).bullets = s.bullets := by
  unfold enemyShoot
  dsimp only
  repeat' split
  all_goals exact ⟨rfl, rfl, rfl, rfl⟩

theorem pbLoop_invar (cols : Int) :
    ∀ (l : List Entity) (st : GameState),
      (pbLoop cols l st).highScore = st.highScore
      ∧ (pbLoop cols l st).level = st.level
      ∧ (pbLoop cols l st).gameOver = st.gameOver
      ∧ (pbLoop cols l st).won = st.won
      ∧ (pbLoop cols l st).bullets.length ≤ st.bullets.length + l.length
  | [], st => ⟨rfl, rfl, rfl, rfl, by simp [pbLoop]⟩
  | b :: rest, st => by
    obtain ⟨ih1, ih2, ih3, ih4, ih5⟩ := pbLoop_invar cols rest st
    unfold pbLoop
    dsimp only
    repeat' split
    all_goals refine ⟨ih1, ih2, ih3, ih4, ?_⟩
    all_goals simp only [List.length_cons, List.length_drop]
    all_goals omega

theorem ebLoop_invar :
    ∀ (l : List Entity) (st : GameState),
      (ebLoop l st).score = st.score
      ∧ (ebLoop l st).level = st.level
      ∧ (ebLoop l st).bullets = st.bullets
      ∧ st.highScore ≤ (ebLoop l st).highScore
      ∧ (ebLoop l st).highScore ≤ max st.highScore st.score
  | [], st => ⟨rfl, rfl, rfl, le_refl _, le_max_left _ _⟩
  | b :: rest, st => by
    obtain ⟨ih1, ih2, ih3, ih4, ih5⟩ := ebLoop_invar rest st
    unfold ebLoop
    dsimp only
    repeat' split
    all_goals refine ⟨ih1, ih2, ih3, ?_, ?_⟩
    all_goals try exact ih4
    all_goals try exact ih5
    all_goals dsimp only
    all_goals omega

theorem shootPhase_invar (s : GameState) (r : ℕ → ℚ) :
    (shootPhase s r).score = s.score ∧ (shootPhase s r).highScore = s.highScore
    ∧ (shootPhase s r).level = s.level ∧ (shootPhase s r).bullets = s.bullets := by
  unfold shootPhase
  split
  · exact enemyShoot_invar s r
  · exact ⟨rfl, rfl, rfl, rfl⟩

theorem pbPhase_invar (s : GameState) (cols : Int) :
    (pbPhase s cols).highScore = s.highScore
    ∧ (pbPhase s cols).level = s.level
    ∧ (pbPhase s cols).bullets.length ≤ s.bullets.length := by
  obtain ⟨h1, h2, _, _, h5⟩ := pbLoop_invar cols s.bullets {s with bullets := []}
  exact ⟨h1, h2, by simpa using h5⟩

theorem ebPhase_invar (s : GameState) :
    (ebPhase s).score = s.score
    ∧ (ebPhase s).level = s.level
    ∧ (ebPhase s).bullets = s.bullets
    ∧ s.highScore ≤ (ebPhase s).highScore
    ∧ (ebPhase s).highScore ≤ max s.highScore s.score := by
  obtain ⟨h1, h2, h3, h4, h5⟩ := ebLoop_invar s.enemyBullets {s with enemyBullets := []}
  exact ⟨h1, h2, h3, h4, h5⟩

theorem tickPhase_invar (s : GameState) (r : ℕ → ℚ) :
    (tickPhase s r).level = s.level
    ∧ s.highScore ≤ (tickPhase s r).highScore
    ∧ (tickPhase s r).highScore ≤ max s.highScore (tickPhase s r).score
    ∧ (tickPhase s r).bullets.length ≤ s.bullets.length := by
  unfold tickPhase
  set c := colsOf (tickInc s) with hc
  set s1 := tickInc s with h1
  set s2 := animatePhase c s1 with h2
  set s3 := explosionsPhase s2 with h3
  set s4 := ufoPhase s3 r with h4
  set s5 := playerBulletMovePhase s4 with h5
  set s6 := enemyBulletMovePhase s5 with h6
  set s7 := shootPhase s6 r with h7
  set s8 := pbPhase s7 c with h8
  have e1a : s1.level = s.level := rfl
  have e1b : s1.highScore = s.highScore := rfl
  have e1c : s1.bullets = s.bullets := rfl
  obtain ⟨i2a, i2b, i2c, i2d⟩ := animatePhase_invar c s1
  obtain ⟨i3a, i3b, i3c, i3d⟩ := explosionsPhase_invar s2
  obtain ⟨i4a, i4b, i4c, i4d⟩ := ufoPhase_invar s3 r
  obtain ⟨i5a, i5b, i5c, i5d⟩ := playerBulletMovePhase_invar s4
  obtain ⟨i6a, i6b, i6c, i6d⟩ := enemyBulletMovePhase_invar s5
  obtain ⟨i7a, i7b, i7c, i7d⟩ := shootPhase_invar s6 r
  obtain ⟨i8a, i8b, i8c⟩ := pbPhase_invar s7 c
  obtain ⟨i9a, i9b, i9c, i9d, i9e⟩ := ebPhase_invar s8
  rw [← h2, ← h3, ← h4, ← h5, ← h6, ← h7, ← h8] at *
  have l2 : s2.bullets.length = s1.bullets.length := by rw [i2d]
  have l3 : s3.bullets.length = s2.bullets.length := by rw [i3d]
  have l4 : s4.bullets.length = s3.bullets.length := by rw [i4d]
  have l6 : s6.bullets.length = s5.bullets.length := by rw [i6d]
  have l7 : s7.bullets.length = s6.bullets.length := by rw [i7d]
  have l9 : (ebPhase s8).bullets.length = s8.bullets.length := by rw [i9c]
  have lb : s1.bullets.length = s.bullets.length := by rw [e1c]
  refine ⟨?_, ?_, ?_, ?_⟩
  · omega
  · omega
  · have hsc : (ebPhase s8).score = s8.score := i9a
    omega
  · omega

/-- Claim C7: on any update tick of a playable state in which the enemy
count reaches zero (the collision phase leaves no enemies), `won` becomes
true, the score is increased by the `100×level` completion bonus on top of
the tick's collision results, and the high score is committed to the
maximum of its previous value and the new score. -/
theorem win_commit_exact (s : GameState) (r : ℕ → ℚ)
    (hplay : (s.gameOver || s.won || s.paused) = false)
    (hlvl : 1 ≤ s.level)
    (hwin : (tickPhase s r).enemies = []) :
    (update s r).won = true
    ∧ (update s r).score = (tickPhase s r).score + 100 * s.level
    ∧ (update s r).highScore = max s.highScore ((update s r).score) := by
  have hupd : update s r = winCommit (tickPhase s r) := by
    unfold update
    rw [hplay]
    simp [hwin]
  obtain ⟨hl, hlo, hhi, _⟩ := tickPhase_invar s r
  rw [hupd]
  unfold winCommit
  dsimp only
  refine ⟨rfl, by rw [hl], ?_⟩
  rw [hl]
  have h100 : 100 ≤ 100 * s.level := by omega
  split <;> omega

/-- A playable one-enemy state about to lose its last enemy to an
in-flight bullet on the next tick. -/
def lastEnemyState : GameState :=
  { player := { pos := ⟨18, 14⟩, char := "╔▲╗", color := "#00FF88" }
    enemies := [{ pos := ⟨10, 2⟩, char := "⟨◉⟩", color := "#FF00FF" }]
    bullets := [{ pos := ⟨11, 3⟩, char := "│", color := "#FFFF00" }]
    enemyBullets := []
    shields := []
    ufo := { pos := ⟨-5, 0⟩, active := false, points := 0 }
    explosions := []
    score := 330
    highScore := 200
    lives := 3
    level := 1
    gameOver := false
    won := false
    paused := false
    width := 40
    height := 16
    enemyDirection := 1
    tickCount := 0 }

/-- Claim C7 witness: the theorem applied at `lastEnemyState` (the bullet
kills the lone enemy during the tick), with the resulting score and high
score evaluated: 330 + 30 kill points + 100 bonus = 460. -/
theorem win_commit_exact_witness :
    ((update lastEnemyState (fun _ => mkRat 1 2)).won = true
      ∧ (update lastEnemyState (fun _ => mkRat 1 2)).score
          = (tickPhase lastEnemyState (fun _ => mkRat 1 2)).score + 100 * lastEnemyState.level
      ∧ (update lastEnemyState (fun _ => mkRat 1 2)).highScore
          = max lastEnemyState.highScore ((update lastEnemyState (fun _ => mkRat 1 2)).score))
    ∧ (update lastEnemyState (fun _ => mkRat 1 2)).score = 460
    ∧ (update lastEnemyState (fun _ => mkRat 1 2)).highScore = 460 :=
  ⟨win_commit_exact lastEnemyState (fun _ => mkRat 1 2) rfl (by decide) (by decide),
   by decide, by decide⟩

theorem movePlayer_bullets (s : GameState) (d : Int) :
    (movePlayer s d).bullets = s.bullets := by
  unfold movePlayer
  dsimp only
  split <;> rfl

theorem enemyMovePhase_bullets (m : GameState) :
    (enemyMovePhase m).bullets = m.bullets := by
  unfold enemyMovePhase
  dsimp only
  repeat' split
  all_goals rfl

theorem update_bullets_le (s : GameState) (r : ℕ → ℚ) :
    (update s r).bullets.length ≤ s.bullets.length := by
  unfold update
  split
  · exact le_refl _
  · dsimp only
    split
    · exact (tickPhase_invar s r).2.2.2
    · rw [enemyMovePhase_bullets]
      exact (tickPhase_invar s r).2.2.2

/-- Claim C10: `shoot` is a silent no-op at three or more player bullets,
so every state reachable from `createInitialState` by any sequence of
`shoot`, `movePlayer` and `update` has at most three player bullets. -/
theorem bullet_cap (s : GameState) (h : Reachable s) : s.bullets.length ≤ 3 := by
  induction h with
  | init termWidth termHeight level highScore =>
    simp [createInitialState]
  | move s d hd hr ih =>
    rw [movePlayer_bullets]
    exact ih
  | fire s hr ih =>
    unfold shoot
    split
    · exact ih
    · rename_i hlt
      simp only [List.length_append, List.length_cons, List.length_nil]
      omega
  | tick s r hr ih =>
    exact le_trans (update_bullets_le s r) ih

/-- Claim C10 witness: a freshly initialised state after one `shoot` is
reachable and respects the cap (its single bullet evaluated). -/
theorem bullet_cap_witness :
    (shoot (createInitialState 80 40 1 0)).bullets.length ≤ 3
    ∧ (shoot (createInitialState 80 40 1 0)).bullets.length = 1 :=
  ⟨bullet_cap _ (Reachable.fire _ (Reachable.init 80 40 1 0)), by decide⟩

/-- Claim C2 (amended): once either terminal flag is set, `update` leaves
the state untouched, and the `movePlayer`/`shoot` intents never change
either flag — so terminal flags are set only by `update` and cleared only
by re-initialization.  (They are not, however, mutually exclusive; see the
counterexample trace.) -/
theorem terminal_flags_persist (s : GameState) (r : ℕ → ℚ) (d : Int)
    (h : s.gameOver = true ∨ s.won = true) :
    update s r = s
    ∧ (movePlayer s d).gameOver = s.gameOver ∧ (movePlayer s d).won = s.won
    ∧ (shoot s).gameOver = s.gameOver ∧ (shoot s).won = s.won := by
  refine ⟨?_, ?_, ?_, ?_, ?_⟩
  · unfold update
    rcases h with h | h <;> simp [h]
  all_goals first
    | (unfold movePlayer; dsimp only; split <;> rfl)
    | (unfold shoot; split <;> rfl)

/-- Claim C2's amended theorem witness: a freshly initialised state with
`gameOver` forced on is frozen by `update` and its flags survive the
intents. -/
theorem terminal_flags_persist_witness :
    update {createInitialState 50 28 1 0 with gameOver := true} (fun _ => mkRat 1 2)
        = {createInitialState 50 28 1 0 with gameOver := true}
    ∧ (movePlayer {createInitialState 50 28 1 0 with gameOver := true} 1).gameOver
        = ({createInitialState 50 28 1 0 with gameOver := true} : GameState).gameOver
    ∧ (movePlayer {createInitialState 50 28 1 0 with gameOver := true} 1).won
        = ({createInitialState 50 28 1 0 with gameOver := true} : GameState).won
    ∧ (shoot {createInitialState 50 28 1 0 with gameOver := true}).gameOver
        = ({createInitialState 50 28 1 0 with gameOver := true} : GameState).gameOver
    ∧ (shoot {createInitialState 50 28 1 0 with gameOver := true}).won
        = ({createInitialState 50 28 1 0 with gameOver := true} : GameState).won :=
  terminal_flags_persist {createInitialState 50 28 1 0 with gameOver := true}
    (fun _ => mkRat 1 2) 1 (Or.inl rfl)

/-- The intent/tick alphabet used to exhibit a concrete reachable state:
move left/right, fire, and an update tick with either the quiet random
stream (no UFO spawn, no enemy shot) or the firing stream (the enemy-shot
chance gate passes and shooter index 0 is drawn). -/
inductive Act
  | mvL
  | mvR
  | fire
  | tickQ
  | tickF

/-- Quiet stream: every draw 1/2. -/
def rQuiet : ℕ → ℚ := fun _ => mkRat 1 2

/-- Firing stream: draws 2 (enemy-shot chance) and 3 (shooter index) are
0, the rest 1/2. -/
def rFire : ℕ → ℚ := fun k => if k == 2 || k == 3 then 0 else mkRat 1 2

def stepAct (s : GameState) : Act → GameState
  | Act.mvL => movePlayer s (-1)
  | Act.mvR => movePlayer s 1
  | Act.fire => shoot s
  | Act.tickQ => update s rQuiet
  | Act.tickF => update s rFire

def runActs (s : GameState) (l : List Act) : GameState :=
  l.foldl stepAct s

theorem reachable_runActs (s : GameState) (h : Reachable s) :
    ∀ l : List Act, Reachable (runActs s l)
  | [] => h
  | a :: rest => by
    have h1 : Reachable (stepAct s a) := by
      cases a with
      | mvL => exact Reachable.move s (-1) (Or.inr rfl) h
      | mvR => exact Reachable.move s 1 (Or.inl rfl) h
      | fire => exact Reachable.fire s h
      | tickQ => exact Reachable.tick s rQuiet h
      | tickF => exact Reachable.tick s rFire h
    exact reachable_runActs (stepAct s a) h1 rest

/-- Counterexample trace, part 1: aimed shots clearing most invaders. -/
def c2TraceA : List Act :=
  List.replicate 8 Act.mvL
    ++ [Act.fire]
    ++ List.replicate 7 Act.tickQ
    ++ [Act.mvR, Act.mvR]
    ++ [Act.fire]
    ++ List.replicate 9 Act.tickQ
    ++ List.replicate 7 Act.mvR
    ++ [Act.fire]
    ++ List.replicate 7 Act.tickQ
    ++ [Act.mvL]
    ++ [Act.fire]
    ++ List.replicate 11 Act.tickQ
    ++ List.replicate 8 Act.mvR
    ++ [Act.fire]
    ++ List.replicate 10 Act.tickQ
    ++ [Act.mvR]
    ++ [Act.fire]
    ++ List.replicate 8 Act.tickQ
    ++ List.replicate 7 Act.mvL
    ++ [Act.fire]
    ++ List.replicate 7 Act.tickQ

/-- Counterexample trace, part 2: more aimed shots. -/
def c2TraceB : List Act :=
  [Act.tickQ]
    ++ List.replicate 6 Act.mvR
    ++ [Act.fire]
    ++ List.replicate 10 Act.tickQ
    ++ List.replicate 8 Act.mvL
    ++ [Act.fire]
    ++ List.replicate 10 Act.tickQ
    ++ [Act.fire]
    ++ List.replicate 6 Act.tickQ
    ++ [Act.fire]
    ++ List.replicate 9 Act.tickQ
    ++ [Act.tickF]
    ++ [Act.mvR]
    ++ List.replicate 23 Act.tickQ
    ++ [Act.tickF]
    ++ List.replicate 9 Act.mvL
    ++ List.replicate 11 Act.tickQ

/-- Counterexample trace, part 3: the last enemy remains; two enemy shots
are deliberately absorbed, dropping to the last life. -/
def c2TraceC : List Act :=
  List.replicate 12 Act.tickQ
    ++ List.replicate 16 Act.mvR
    ++ [Act.tickF]
    ++ List.replicate 13 Act.tickQ
    ++ List.replicate 33 Act.mvL
    ++ [Act.fire]
    ++ List.replicate 24 Act.mvR

/-- Counterexample trace, part 4: the finale — one tick lets the last
player bullet destroy the last enemy while the last enemy bullet takes the
last life, setting `gameOver` and then `won` in the same tick. -/
def c2TraceD : List Act :=
  List.replicate 9 Act.mvR
    ++ List.replicate 4 Act.tickQ
    ++ List.replicate 33 Act.mvL
    ++ [Act.tickQ]

/-- The full counterexample trace. -/
def c2Trace : List Act :=
  c2TraceA ++ c2TraceB ++ c2TraceC ++ c2TraceD

/-- The state after part 1 of the trace (pinned so the long
evaluation can proceed in bounded chunks). -/
def c2Mid1 : GameState :=
{ player := { pos := { x := 20, y := 14 }, char := "╔▲╗", color := "#00FF88" },
  enemies := [{ pos := { x := 26, y := 3 }, char := "⟩◉⟨", color := "#FF00FF" },
              { pos := { x := 31, y := 3 }, char := "⟩◉⟨", color := "#FF00FF" },
              { pos := { x := 21, y := 5 }, char := "⟩◉⟨", color := "#00FFFF" },
              { pos := { x := 31, y := 5 }, char := "¬█¬", color := "#00FFFF" },
              { pos := { x := 26, y := 7 }, char := "¬█¬", color := "#00FFFF" },
              { pos := { x := 31, y := 7 }, char := "¬█¬", color := "#00FFFF" }],
  bullets := [{ pos := { x := 21, y := 6 }, char := "│", color := "#FFFF00" }],
  enemyBullets := [],
  shields := [{ pos := { x := 8, y := 9 }, health := 4 },
              { pos := { x := 16, y := 9 }, health := 4 },
              { pos := { x := 24, y := 9 }, health := 4 },
              { pos := { x := 32, y := 9 }, health := 4 }],
  ufo := { pos := { x := -5, y := 0 }, active := false, points := 0 },
  explosions := [],
  score := 150,
  highScore := 0,
  lives := 3,
  level := 1,
  gameOver := false,
  won := false,
  paused := false,
  width := 40,
  height := 16,
  enemyDirection := -1,
  tickCount := 59 }

/-- The state after part 2 of the trace (pinned so the long
evaluation can proceed in bounded chunks). -/
def c2Mid2 : GameState :=
{ player := { pos := { x := 11, y := 14 }, char := "╔▲╗", color := "#00FF88" },
  enemies := [{ pos := { x := 7, y := 7 }, char := "⟩◉⟨", color := "#00FFFF" }],
  bullets := [],
  enemyBullets := [{ pos := { x := 12, y := 11 }, char := "▼", color := "#FF4444" }],
  shields := [{ pos := { x := 8, y := 9 }, health := 4 },
              { pos := { x := 16, y := 9 }, health := 4 },
              { pos := { x := 24, y := 9 }, health := 4 },
              { pos := { x := 32, y := 9 }, health := 4 }],
  ufo := { pos := { x := -5, y := 0 }, active := false, points := 0 },
  explosions := [],
  score := 300,
  highScore := 0,
  lives := 2,
  level := 1,
  gameOver := false,
  won := false,
  paused := false,
  width := 40,
  height := 16,
  enemyDirection := -1,
  tickCount := 131 }

/-- The state after part 3 of the trace (pinned so the long
evaluation can proceed in bounded chunks). -/
def c2Mid3 : GameState :=
{ player := { pos := { x := 27, y := 14 }, char := "╔▲╗", color := "#00FF88" },
  enemies := [{ pos := { x := 3, y := 8 }, char := "⟩◉⟨", color := "#00FFFF" }],
  bullets := [{ pos := { x := 4, y := 13 }, char := "│", color := "#FFFF00" }],
  enemyBullets := [{ pos := { x := 4, y := 12 }, char := "▼", color := "#FF4444" }],
  shields := [{ pos := { x := 8, y := 9 }, health := 4 },
              { pos := { x := 16, y := 9 }, health := 4 },
              { pos := { x := 24, y := 9 }, health := 4 },
              { pos := { x := 32, y := 9 }, health := 4 }],
  ufo := { pos := { x := -5, y := 0 }, active := false, points := 0 },
  explosions := [],
  score := 300,
  highScore := 0,
  lives := 1,
  level := 1,
  gameOver := false,
  won := false,
  paused := false,
  width := 40,
  height := 16,
  enemyDirection := 1,
  tickCount := 157 }

theorem runActs_append (s : GameState) (l1 l2 : List Act) :
    runActs s (l1 ++ l2) = runActs (runActs s l1) l2 :=
  List.foldl_append _ _ _ _

set_option maxRecDepth 8000 in
set_option maxHeartbeats 4000000 in
/-- Claim C2 counterexample: a reachable Space-Invaders state with both
`won = true` and `gameOver = true` — the flags are not mutually
exclusive. -/
theorem both_flags_reachable :
    Reachable (runActs (createInitialState 50 28 1 0) c2Trace)
    ∧ (runActs (createInitialState 50 28 1 0) c2Trace).gameOver = true
    ∧ (runActs (createInitialState 50 28 1 0) c2Trace).won = true := by
  have hA : runActs (createInitialState 50 28 1 0) c2TraceA = c2Mid1 := by decide
  have hB : runActs c2Mid1 c2TraceB = c2Mid2 := by decide
  have hC : runActs c2Mid2 c2TraceC = c2Mid3 := by decide
  have key : runActs (createInitialState 50 28 1 0) c2Trace = runActs c2Mid3 c2TraceD := by
    rw [show c2Trace = c2TraceA ++ c2TraceB ++ c2TraceC ++ c2TraceD from rfl,
      runActs_append, runActs_append, runActs_append, hA, hB, hC]
  have hD : (runActs c2Mid3 c2TraceD).gameOver = true
      ∧ (runActs c2Mid3 c2TraceD).won = true := by decide
  refine ⟨reachable_runActs _ (Reachable.init 50 28 1 0) c2Trace, ?_, ?_⟩
  · rw [key]
    exact hD.1
  · rw [key]
    exact hD.2

end Invaders

/-- A 2048 state with the terminal flag `won` set (and a shiftable row). -/
def wonState : TwentyFortyEight.GameState :=
  { grid := [[0, 2, 0, 0], [0, 0, 0, 0], [0, 0, 0, 0], [0, 0, 0, 0]]
    score := 4
    highScore := 4
    gameOver := false
    won := true
    paused := false
    width := 36
    height := 20 }

/-- Claim C4 counterexample: the 2048 engine's `move` is gated only on
`gameOver`, so with the terminal flag `won` set a move still shifts the
grid, spawns a tile and reports movement — the state does not stay
unchanged once a terminal flag is true. -/
theorem won_move_mutates :
    (TwentyFortyEight.move wonState 0 (-1) (fun _ => 0)).2 = true
    ∧ (TwentyFortyEight.move wonState 0 (-1) (fun _ => 0)).1 ≠ wonState :=
  ⟨by decide, by decide⟩

/-- Claim C4 (amended): once `gameOver` is set, every engine's update tick
is a no-op, the Flappy jump is inert, the 2048 move refuses to act, and the
Space-Invaders update is also frozen by `won`; the exceptions forced by the
counterexample are that 2048's `move` is not gated on `won`, and that
direction/move/fire intents are not gated on terminal flags at all. -/
theorem terminalFreeze :
    (∀ (s : Snake.GameState) (r : ℕ → ℚ), s.gameOver = true → Snake.updateSnake s r = s)
    ∧ (∀ (s : Flappy.GameState) (r : ℕ → ℚ), s.gameOver = true → Flappy.updateFlappy s r = s)
    ∧ (∀ s : Flappy.GameState, s.gameOver = true → Flappy.jump s = s)
    ∧ (∀ (s : Invaders.GameState) (r : ℕ → ℚ), s.gameOver = true ∨ s.won = true →
        Invaders.update s r = s)
    ∧ (∀ (s : TwentyFortyEight.GameState) (dr dc : Int) (r : ℕ → ℚ), s.gameOver = true →
        TwentyFortyEight.move s dr dc r = (s, false)) := by
  refine ⟨?_, ?_, ?_, ?_, ?_⟩
  · intro s r h
    unfold Snake.updateSnake
    simp [h]
  · intro s r h
    unfold Flappy.updateFlappy
    simp [h]
  · intro s h
    unfold Flappy.jump
    simp [h]
  · intro s r h
    unfold Invaders.update
    rcases h with h | h <;> simp [h]
  · intro s dr dc r h
    unfold TwentyFortyEight.move
    simp [h]

/-- A Snake state with `gameOver` set. -/
def deadSnake : Snake.GameState :=
  { snake := [⟨5, 5⟩, ⟨5, 6⟩, ⟨5, 7⟩]
    direction := ⟨0, -1⟩
    food := ⟨2, 2⟩
    score := 30
    highScore := 30
    gameOver := true
    paused := false
    width := 10
    height := 10 }

/-- A Flappy state with `gameOver` set. -/
def deadFlappy : Flappy.GameState :=
  { birdY := 7
    velocity := 0
    pipes := []
    score := 2
    highScore := 2
    gameOver := true
    paused := false
    width := 40
    height := 16
    tickCount := 5 }

/-- A 2048 state with `gameOver` set. -/
def dead2048 : TwentyFortyEight.GameState :=
  { grid := [[2, 4, 2, 4], [4, 2, 4, 2], [2, 4, 2, 4], [4, 2, 4, 2]]
    score := 0
    highScore := 0
    gameOver := true
    won := false
    paused := false
    width := 36
    height := 20 }

/-- Claim C4 witness: the amended freeze theorem applied at concrete
terminal states of each engine. -/
theorem terminalFreeze_witness :
    Snake.updateSnake deadSnake (fun _ => mkRat 1 2) = deadSnake
    ∧ Flappy.updateFlappy deadFlappy (fun _ => mkRat 1 2) = deadFlappy
    ∧ Flappy.jump deadFlappy = deadFlappy
    ∧ Invaders.update {Invaders.createInitialState 50 28 1 0 with won := true}
        (fun _ => mkRat 1 2) = {Invaders.createInitialState 50 28 1 0 with won := true}
    ∧ TwentyFortyEight.move dead2048 0 1 (fun _ => mkRat 1 2) = (dead2048, false) :=
  ⟨terminalFreeze.1 deadSnake _ rfl,
   terminalFreeze.2.1 deadFlappy _ rfl,
   terminalFreeze.2.2.1 deadFlappy rfl,
   terminalFreeze.2.2.2.1 _ _ (Or.inr rfl),
   terminalFreeze.2.2.2.2 dead2048 0 1 _ rfl⟩

end RetroArcade
